import Mathlib

set_option maxRecDepth 100000

/-!
Verification development for the Sound Blaster X G6 host-side control plane
(`g6_protocol.rs`, `g6_protocol_v2.rs`, `g6_spec.rs`, `g6_device.rs`).

Modelling conventions:
* a byte is a `Nat` (always `< 256` when it comes off the wire; theorems add
  that hypothesis where it matters);
* a wire frame is a `List Nat`;
* Rust `f32` values are modelled exactly: a finite binary32 value is a dyadic
  rational `n / 2^149` and is represented by its integer numerator `n`
  (`F32Val.fin n`); NaN and the infinities are separate constructors.  All
  arithmetic the code performs on floats (multiplication by `100.0`,
  `round()`, saturating `as u8` casts, comparison against the literal
  `0.0001`) is modelled with exact integer arithmetic on these numerators,
  following the IEEE-754 round-to-nearest-even rule for the product;
* Rust `String`s that hold firmware text are modelled as byte lists;
  `String::from_utf8_lossy` followed by `trim` is modelled as a byte-level
  trim of ASCII whitespace, which agrees with the code on ASCII payloads
  (the theorems about the firmware parser restrict to ASCII payloads);
* the blocking/timeout structure of the device I/O is abstracted: the frames
  a device will deliver are a finite list, and a read timeout corresponds to
  that list being exhausted.  Error values are modelled by the enumeration
  `G6Error` instead of formatted strings.
-/

deriving instance DecidableEq for Except

namespace G6

abbrev Byte := Nat

/-- The constant `PREFIX: u8 = 0x5a` shared by both protocol modules. -/
def prefixByte : Byte := 0x5a

/-- Constant `PAYLOAD_SIZE: usize = 64`. -/
def PAYLOAD_SIZE : Nat := 64

/-- Model of `Vec::resize(n, 0x00)` applied to a byte vector: pad with zeros
up to `n`, or truncate down to `n` when the vector is longer. -/
def resizePad (n : Nat) (l : List Byte) : List Byte :=
  (l ++ List.replicate (n - l.length) 0).take n

/-- Big-endian bytes of a `u16` (`u16::to_be_bytes`). -/
def beBytes2 (x : Nat) : List Byte := [x / 256 % 256, x % 256]

/-- Little-endian bytes of a `u32` (`u32::to_le_bytes`). -/
def leBytes4 (x : Nat) : List Byte :=
  [x % 256, x / 256 % 256, x / 65536 % 256, x / 16777216 % 256]

/-! ### Command families (`g6_protocol_v2.rs`, `enum CommandFamily`) -/

inductive CommandFamily where
  | Unknown02
  | Identification
  | FirmwareQuery
  | HardwareStatus
  | AudioControl
  | DataControl
  | BatchControl
  | Processing
  | Gaming
  | Routing
  | DeviceConfig
  | SystemConfig
  | AudioConfigFam
  | DigitalFilterFam
deriving DecidableEq

/-- Source `CommandFamily::as_u8` (the `repr(u8)` discriminants). -/
def CommandFamily.as_u8 : CommandFamily → Byte
  | .Unknown02 => 0x02
  | .Identification => 0x05
  | .FirmwareQuery => 0x07
  | .HardwareStatus => 0x10
  | .AudioControl => 0x11
  | .DataControl => 0x12
  | .BatchControl => 0x15
  | .Processing => 0x20
  | .Gaming => 0x26
  | .Routing => 0x2c
  | .DeviceConfig => 0x30
  | .SystemConfig => 0x3a
  | .AudioConfigFam => 0x3c
  | .DigitalFilterFam => 0x6c

/-! ### The generic command builder (`g6_protocol_v2.rs`, `G6CommandBuilder`) -/

/-- Source `struct G6CommandBuilder` — the state accumulated by the fluent builder. -/
structure G6CommandBuilder where
  family : CommandFamily
  operation_bytes : List Byte
  intermediate : Option Nat
  feature : Option Byte
  value : Option (List Byte)

/-- Source `G6CommandBuilder::new(family)`. -/
def G6CommandBuilder.new (family : CommandFamily) : G6CommandBuilder :=
  ⟨family, [], none, none, none⟩

/-- Source `G6CommandBuilder::operation(bytes)`. -/
def G6CommandBuilder.operation (b : G6CommandBuilder) (bytes : List Byte) :
    G6CommandBuilder :=
  { b with operation_bytes := bytes }

/-- Source `G6CommandBuilder::feature(feature)`. -/
def G6CommandBuilder.feature' (b : G6CommandBuilder) (f : Byte) : G6CommandBuilder :=
  { b with feature := some f }

/-- Source `G6CommandBuilder::value(value)`. -/
def G6CommandBuilder.value' (b : G6CommandBuilder) (v : List Byte) : G6CommandBuilder :=
  { b with value := some v }

/-- Source `G6CommandBuilder::build`: `[0x5A, family] ++ operation ++ intermediate
(big-endian u16) ++ feature ++ value`, then `resize(64, 0x00)`. -/
def G6CommandBuilder.build (b : G6CommandBuilder) : List Byte :=
  resizePad PAYLOAD_SIZE
    ([prefixByte, b.family.as_u8]
      ++ b.operation_bytes
      ++ (match b.intermediate with
          | some i => beBytes2 i
          | none => [])
      ++ (match b.feature with
          | some f => [f]
          | none => [])
      ++ (match b.value with
          | some v => v
          | none => []))

/-! ### The legacy frame builder (`g6_protocol.rs`, `build_command`) -/

/-- Constant `INTERMEDIATE_AUDIO: u16 = 0x0196`. -/
def INTERMEDIATE_AUDIO : Nat := 0x0196

/-- Source `build_command(request_type, feature, value)` from `g6_protocol.rs`:
prefix byte, big-endian request type, big-endian audio intermediate, feature
byte, little-endian `u32` value, padded (or truncated) to 64 bytes. -/
def build_command (request_type : Nat) (feature : Byte) (value : Nat) : List Byte :=
  resizePad PAYLOAD_SIZE
    ([prefixByte] ++ beBytes2 request_type ++ beBytes2 INTERMEDIATE_AUDIO
      ++ [feature] ++ leBytes4 value)

/-! ### Basic frame lemmas -/

theorem resizePad_length (n : Nat) (l : List Byte) : (resizePad n l).length = n := by
  simp only [resizePad, List.length_take, List.length_append, List.length_replicate]
  omega

theorem resizePad_getD_zero (n : Nat) (hn : 0 < n) (a : Byte) (l : List Byte) :
    (resizePad n (a :: l)).getD 0 0 = a := by
  obtain ⟨m, rfl⟩ : ∃ m, n = m + 1 := ⟨n - 1, by omega⟩
  simp [resizePad, List.take_succ_cons]

/-! ### Exact model of the `f32` values the protocol manipulates

A finite binary32 value is an integer multiple of `2^(-149)`; `F32Val.fin n`
denotes the value `n / 2^149`.  The helpers below reproduce, exactly, the
float operations the Rust code performs. -/

inductive F32Val where
  | nan
  | inf (neg : Bool)
  | fin (n : ℤ)
deriving DecidableEq

/-- Fuel-bounded floor of the base-2 logarithm (`log2F fuel n = Nat.log2 n`
whenever `n < 2^fuel`; the fuel used below always dominates the inputs). -/
def log2F : Nat → Nat → Nat
  | 0, _ => 0
  | fuel + 1, n => if n < 2 then 0 else log2F fuel (n / 2) + 1

/-- Round the quotient `a / b` (with `b > 0`) to the nearest integer, ties to
even — the IEEE-754 default rounding used by Rust float arithmetic. -/
def rneDiv (a b : Nat) : Nat :=
  let q := a / b
  let r := a % b
  if 2 * r < b then q
  else if b < 2 * r then q + 1
  else if q % 2 = 0 then q else q + 1

/-- Decode four little-endian bytes as a binary32 value
(`f32::from_le_bytes`), exactly. -/
def f32FromLeBytes (b0 b1 b2 b3 : Byte) : F32Val :=
  let bits : Nat := b0 + 256 * b1 + 65536 * b2 + 16777216 * b3
  let sign : Nat := bits / 2 ^ 31 % 2
  let ex : Nat := bits / 2 ^ 23 % 256
  let man : Nat := bits % 2 ^ 23
  if ex = 255 then
    if man = 0 then .inf (sign = 1) else .nan
  else
    let mag : ℤ := if ex = 0 then (man : ℤ) else (2 ^ 23 + man) * 2 ^ (ex - 1)
    .fin (if sign = 1 then -mag else mag)

/-- Round the nonzero dyadic rational `k / 2^149` to the nearest binary32
value (round to nearest, ties to even), overflowing to infinity. -/
def roundF32dy (k : ℤ) : F32Val :=
  if k = 0 then .fin 0
  else
    let a := k.natAbs
    let L := log2F 400 a
    let t := L - 23
    let m := rneDiv a (2 ^ t)
    let mag := m * 2 ^ t
    if 2 ^ 277 ≤ mag then .inf (k < 0)
    else .fin (if k < 0 then -(mag : ℤ) else (mag : ℤ))

/-- Exact model of the f32 product `v * 100.0` appearing in
`parse_audio_effect_events`: the exact product `100 * (n / 2^149)` is
`(100 * n) / 2^149`, which is then rounded back to binary32. -/
def f32Mul100 : F32Val → F32Val
  | .nan => .nan
  | .inf s => .inf s
  | .fin n => roundF32dy (100 * n)

/-- Round `n / 2^149` to the nearest integer, ties away from zero — the
semantics of Rust `f32::round` (exact because rounding a finite f32 to an
integer is exact). -/
def roundHalfAwayDy (n : ℤ) : ℤ :=
  if 0 ≤ n then (n + 2 ^ 148) / 2 ^ 149
  else -((-n + 2 ^ 148) / 2 ^ 149)

/-- Exact model of the Rust expression `x.round() as u8`: round half away
from zero, then the saturating float-to-integer cast (negative values and
NaN give 0, values above 255 give 255). -/
def f32RoundAsU8 : F32Val → Nat
  | .nan => 0
  | .inf neg => if neg then 0 else 255
  | .fin n =>
    let r := roundHalfAwayDy n
    if r < 0 then 0 else min 255 r.toNat

/-- Numerator (in units of `2^(-149)`) of the exact value of the Rust
literal `0.0001f32`, whose bit pattern is `0x38D1B717`:
`(2^23 + 0x51B717) * 2^(113 - 150) = 13743895 / 2^37`. -/
def THRESH_N : ℤ := 13743895 * 2 ^ 112

/-- Exact model of the Rust comparison `float_value > 0.0001` (an IEEE
comparison: false on NaN, sign-sensitive). -/
def f32GtThresh : F32Val → Bool
  | .nan => false
  | .inf neg => !neg
  | .fin n => decide (THRESH_N < n)

/-- Rational value of a finite modelled float (`none` for NaN/infinity);
used only to state claims about decoded values. -/
def f32Rat : F32Val → Option ℚ
  | .fin n => some ((n : ℚ) / 2 ^ 149)
  | _ => none

/-! ### Domain enumerations (`g6_spec.rs`) -/

inductive OutputDevice where
  | Speakers
  | Headphones
deriving DecidableEq

inductive EffectState where
  | Enabled
  | Disabled
deriving DecidableEq

inductive ScoutModeState where
  | Enabled
  | Disabled
deriving DecidableEq

inductive SmartVolumePreset where
  | Night
  | Loud
deriving DecidableEq

/-- Modelled from the spec: `DigitalFilter` is referenced by
`g6_protocol_v2.rs` and `g6_device.rs` as `crate::g6_spec::DigitalFilter`
but its declaration is not among the source files; the spec defines the four
variants (wire codes 0x01/0x02/0x04/0x05). -/
inductive DigitalFilter where
  | FastRollOffMinimumPhase
  | SlowRollOffMinimumPhase
  | FastRollOffLinearPhase
  | SlowRollOffLinearPhase
deriving DecidableEq

/-- Modelled from the spec: `AudioConfig` is referenced as
`crate::g6_spec::AudioConfig` (used as `AudioConfig::Unknown(value)`) but its
declaration is not among the source files; the spec retains the 0x3C family
as an opaque observed byte. -/
inductive AudioConfig where
  | Unknown (v : Byte)
deriving DecidableEq

/-- Source `struct FirmwareInfo` with the version text modelled as bytes. -/
structure FirmwareInfo where
  version : List Byte
  build : Option (List Byte)
deriving DecidableEq

/-! ### Device events (`g6_protocol_v2.rs`, `enum DeviceEvent`) -/

inductive DeviceEvent where
  | OutputChanged (d : OutputDevice)
  | SbxModeChanged (s : EffectState)
  | ScoutModeChanged (s : ScoutModeState)
  | SurroundToggled (s : EffectState)
  | CrystalizerToggled (s : EffectState)
  | BassToggled (s : EffectState)
  | SmartVolumeToggled (s : EffectState)
  | DialogPlusToggled (s : EffectState)
  | SurroundValueChanged (v : Nat)
  | CrystalizerValueChanged (v : Nat)
  | BassValueChanged (v : Nat)
  | SmartVolumeValueChanged (v : Nat)
  | DialogPlusValueChanged (v : Nat)
  | DigitalFilterChanged (f : DigitalFilter)
  | AudioConfigChanged (c : AudioConfig)
deriving DecidableEq

/-! ### The event parser (`g6_protocol_v2.rs`, `impl G6EventParser`) -/

namespace G6EventParser

/-- Source `parse_output_event`: any 0x2C-family packet of length at least 5
is inspected at byte 4 (0x04 means headphones, 0x02 speakers). -/
def parse_output_event (packet : List Byte) : Option DeviceEvent :=
  if packet.length < 5 ∨ packet.getD 1 0 ≠ 0x2c then none
  else if packet.getD 4 0 = 0x04 then some (.OutputChanged .Headphones)
  else if packet.getD 4 0 = 0x02 then some (.OutputChanged .Speakers)
  else none

/-- One iteration of the scan loop inside `parse_gaming_mode_events` (the
command-format branch): at index `i`, when `packet[i+1] = 0`, feature byte
0x01 with value byte 0x01/0x00 yields an SBX event and feature byte 0x02
with value byte 0x01/0x00 yields a Scout event. -/
def gamingAt (packet : List Byte) (i : Nat) : List DeviceEvent :=
  if packet.getD (i + 1) 0 = 0x00 then
    (if packet.getD i 0 = 0x01 then
      if packet.getD (i + 2) 0 = 0x01 then [.SbxModeChanged .Enabled]
      else if packet.getD (i + 2) 0 = 0x00 then [.SbxModeChanged .Disabled]
      else []
    else [])
    ++
    (if packet.getD i 0 = 0x02 then
      if packet.getD (i + 2) 0 = 0x01 then [.ScoutModeChanged .Enabled]
      else if packet.getD (i + 2) 0 = 0x00 then [.ScoutModeChanged .Disabled]
      else []
    else [])
  else []

/-- Source `parse_gaming_mode_events`: report format (`packet[2] = 0x0B`)
reads the combined mode byte at index 6 and always emits the SBX event (bit
0) followed by the Scout event (bit 1); the command format scans indices
`2 .. packet.len() - 3` with `gamingAt`. -/
def parse_gaming_mode_events (packet : List Byte) : List DeviceEvent :=
  if packet.length < 7 ∨ packet.getD 1 0 ≠ 0x26 then []
  else if packet.getD 2 0 = 0x0b then
    let mode_value := packet.getD 6 0
    [ .SbxModeChanged
        (if mode_value &&& 0x01 ≠ 0 then .Enabled else .Disabled),
      .ScoutModeChanged
        (if mode_value &&& 0x02 ≠ 0 then .Enabled else .Disabled) ]
  else (List.range' 2 (packet.length - 4)).flatMap (gamingAt packet)

/-- The `match feature` dispatch at the end of `parse_audio_effect_events`:
toggle features carry the enabled state, slider features the percentage. -/
def audioEventFor (feature : Byte) (enabled : EffectState) (percentage : Nat) :
    List DeviceEvent :=
  if feature = 0x00 then [.SurroundToggled enabled]
  else if feature = 0x01 then [.SurroundValueChanged percentage]
  else if feature = 0x02 then [.DialogPlusToggled enabled]
  else if feature = 0x03 then [.DialogPlusValueChanged percentage]
  else if feature = 0x04 then [.SmartVolumeToggled enabled]
  else if feature = 0x05 then [.SmartVolumeValueChanged percentage]
  else if feature = 0x07 then [.CrystalizerToggled enabled]
  else if feature = 0x08 then [.CrystalizerValueChanged percentage]
  else if feature = 0x18 then [.BassToggled enabled]
  else if feature = 0x19 then [.BassValueChanged percentage]
  else []

/-- Source `parse_audio_effect_events`: packets of the shape
`5A 11 08 .. .. .. feat b7 b8 b9 b10 ..` decode the little-endian float at
bytes 7..10, derive the enabled state (`> 0.0001`) and the percentage
(`(v * 100.0).round() as u8`), and dispatch on the feature byte at index 6. -/
def parse_audio_effect_events (packet : List Byte) : List DeviceEvent :=
  if packet.length < 11 ∨ packet.getD 1 0 ≠ 0x11 ∨ packet.getD 2 0 ≠ 0x08 then []
  else
    let float_value := f32FromLeBytes (packet.getD 7 0) (packet.getD 8 0)
      (packet.getD 9 0) (packet.getD 10 0)
    audioEventFor (packet.getD 6 0)
      (if f32GtThresh float_value then .Enabled else .Disabled)
      (f32RoundAsU8 (f32Mul100 float_value))

/-- Source `parse_digital_filter_event` (`5A 6C 03 .. v ..`). -/
def parse_digital_filter_event (packet : List Byte) : Option DeviceEvent :=
  if packet.length < 5 ∨ packet.getD 1 0 ≠ 0x6c ∨ packet.getD 2 0 ≠ 0x03 then none
  else if packet.getD 4 0 = 0x01 then
    some (.DigitalFilterChanged .FastRollOffMinimumPhase)
  else if packet.getD 4 0 = 0x02 then
    some (.DigitalFilterChanged .SlowRollOffMinimumPhase)
  else if packet.getD 4 0 = 0x04 then
    some (.DigitalFilterChanged .FastRollOffLinearPhase)
  else if packet.getD 4 0 = 0x05 then
    some (.DigitalFilterChanged .SlowRollOffLinearPhase)
  else none

/-- Source `parse_audio_config_event` (`5A 3C .. .. .. v ..`). -/
def parse_audio_config_event (packet : List Byte) : Option DeviceEvent :=
  if packet.length < 6 ∨ packet.getD 1 0 ≠ 0x3c then none
  else some (.AudioConfigChanged (.Unknown (packet.getD 5 0)))

/-- Source `G6EventParser::parse`: validate the prefix, then collect the
events of every sub-parser in the order the code pushes them. -/
def parse (packet : List Byte) : List DeviceEvent :=
  if packet.length < 3 ∨ packet.getD 0 0 ≠ prefixByte then []
  else
    (parse_output_event packet).toList
    ++ parse_gaming_mode_events packet
    ++ parse_audio_effect_events packet
    ++ (parse_digital_filter_event packet).toList
    ++ (parse_audio_config_event packet).toList

end G6EventParser

/-! ### The response parser (`g6_protocol_v2.rs`, `impl G6ResponseParser`)

Error values carry no semantic content in the source (they are log strings);
they are modelled by an enumeration.  The `ProtocolDebugInfo` side channel is
pure logging and is omitted. -/

inductive G6Error where
  | responseTooShort
  | firmwareTooShort
  | couldNotExtractFirmware
  | audioEffectTooShort
  | outputConfigTooShort
  | invalidOutputHeader
  | unknownOutputValue (v : Byte)
  | validationError (v : Nat)
  | deviceNotConnected
  | writeFailed
deriving DecidableEq

inductive ParsedResponse where
  | Ascii (s : List Byte)
  | Float (v : F32Val)
  | Boolean (b : Bool)
  | Binary (data : List Byte)
  | OutputDevice (d : G6.OutputDevice)
  | FirmwareInfo (fi : G6.FirmwareInfo)
  | EffectState (enabled : G6.EffectState) (value : F32Val)
deriving DecidableEq

/-- Index of the first zero in a list, counting from `i`; `none` when there
is no zero.  Models the scan `for i in 3..response.len()`. -/
def findZeroIdx : Nat → List Byte → Option Nat
  | _, [] => none
  | i, b :: rest => if b = 0 then some i else findZeroIdx (i + 1) rest

/-- Whether a byte is ASCII whitespace (the bytes Rust `str::trim` removes
from an ASCII string: tab through carriage return, and space). -/
def isAsciiWs (b : Byte) : Bool := b = 0x20 || (0x09 ≤ b && b ≤ 0x0d)

/-- Byte-level model of Rust `str::trim` on an ASCII string. -/
def trimAsciiWs (l : List Byte) : List Byte :=
  ((l.dropWhile isAsciiWs).reverse.dropWhile isAsciiWs).reverse

namespace G6ResponseParser

/-- Source `parse_ascii_firmware`: find the first zero byte at index 3 or
later (`version_end`, defaulting to 3); when it sits strictly after index 3,
the bytes between index 3 and it are the version text, which is trimmed and
must be non-empty. -/
def parse_ascii_firmware (response : List Byte) : Except G6Error ParsedResponse :=
  if response.length < 4 then .error .firmwareTooShort
  else
    let version_end := (findZeroIdx 3 (response.drop 3)).getD 3
    if 3 < version_end then
      let version := trimAsciiWs ((response.drop 3).take (version_end - 3))
      if version ≠ [] then
        .ok (.FirmwareInfo ⟨version, some version⟩)
      else .error .couldNotExtractFirmware
    else .error .couldNotExtractFirmware

/-- Source `parse_audio_effect`: little-endian float at bytes 7..10; the
state is Enabled exactly when `float_value > 0.0001`. -/
def parse_audio_effect (response : List Byte) : Except G6Error ParsedResponse :=
  if response.length < 11 then .error .audioEffectTooShort
  else
    let float_value := f32FromLeBytes (response.getD 7 0) (response.getD 8 0)
      (response.getD 9 0) (response.getD 10 0)
    let enabled : EffectState :=
      if f32GtThresh float_value then .Enabled else .Disabled
    .ok (.EffectState enabled float_value)

/-- Source `parse_output_config` (`5A 2C 05 01 v ..`, value at index 4). -/
def parse_output_config (response : List Byte) : Except G6Error ParsedResponse :=
  if response.length < 5 then .error .outputConfigTooShort
  else if response.getD 1 0 ≠ 0x2c ∨ response.getD 2 0 ≠ 0x05 then
    .error .invalidOutputHeader
  else if response.getD 4 0 = 0x04 then .ok (.OutputDevice .Headphones)
  else if response.getD 4 0 = 0x02 then .ok (.OutputDevice .Speakers)
  else .error (.unknownOutputValue (response.getD 4 0))

/-- Source `G6ResponseParser::parse`: dispatch on the byte pair
`(response[1], response[2])`; unknown pairs return the raw binary frame. -/
def parse (response : List Byte) : Except G6Error ParsedResponse :=
  if response.length < 3 then .error .responseTooShort
  else if response.getD 1 0 = 0x07 ∧ response.getD 2 0 = 0x10 then
    parse_ascii_firmware response
  else if response.getD 1 0 = 0x11 ∧ response.getD 2 0 = 0x08 then
    parse_audio_effect response
  else if response.getD 1 0 = 0x2c ∧ response.getD 2 0 = 0x05 then
    parse_output_config response
  else .ok (.Binary response)

end G6ResponseParser

/-! ### Encoding percentages as floats

The value builders compute `(value as f32) / 100.0` and serialise it with
`f32::to_le_bytes`.  The division is modelled exactly: the quotient
`value / 100` is rounded to the nearest binary32 (ties to even), which is
the IEEE-754 semantics of the Rust division. -/

/-- Floor of `log2 (p / q)` for positive `p, q` with `p / q ≥ 2^(-190)`. -/
def floorLog2Rat (p q : Nat) : ℤ := (log2F 800 (p * 2 ^ 200 / q) : ℤ) - 200

/-- Numerator (in units of `2^(-149)`) of the binary32 nearest to the
positive rational `p / q` (no overflow handling; the uses stay tiny). -/
def f32OfRatPos (p q : Nat) : Nat :=
  let e : ℤ := max (floorLog2Rat p q) (-126)
  let a := p * 2 ^ (23 - e).toNat
  let b := q * 2 ^ (e - 23).toNat
  let m := rneDiv a b
  m * 2 ^ (e + 126).toNat

/-- Bit pattern of the nonnegative representable binary32 value
`n / 2^149` (subnormals and normals; `n = 0` gives the zero pattern). -/
def f32BitsOfUnits (n : Nat) : Nat :=
  if n < 2 ^ 24 then n
  else
    let L := log2F 400 n
    (L - 22) * 2 ^ 23 + (n / 2 ^ (L - 23) - 2 ^ 23)

/-- Model of `((value as f32) / 100.0).to_le_bytes()`. -/
def percentToF32LeBytes (value : Nat) : List Byte :=
  if value = 0 then leBytes4 0
  else leBytes4 (f32BitsOfUnits (f32OfRatPos value 100))

/-- Little-endian bytes of `1.0f32` / `0.0f32` — the canonical toggle write
values (`value.to_le_bytes()` for `1.0f32` is `[0x00, 0x00, 0x80, 0x3F]`). -/
def toggleF32LeBytes (enabled : Bool) : List Byte :=
  if enabled then leBytes4 0x3f800000 else leBytes4 0

/-! ### Convenience builders (`g6_protocol_v2.rs`) -/

/-- Source `build_audio_effect_read(feature)`: `5A 11 03 01 96 feat ..`. -/
def build_audio_effect_read (feature : Byte) : List Byte :=
  (((G6CommandBuilder.new .AudioControl).operation [0x03, 0x01, 0x96]).feature'
    feature).build

/-- Source `build_set_output(device)`: `5A 2C 05 00 v ..` with `v` 0x02 for
speakers and 0x04 for headphones. -/
def build_set_output (device : OutputDevice) : List Byte :=
  let output_value : Byte :=
    match device with
    | .Headphones => 0x04
    | .Speakers => 0x02
  ((G6CommandBuilder.new .Routing).operation [0x05, 0x00, output_value]).build

/-- Source `build_commit_output()`: `5A 2C 01 01 ..`. -/
def build_commit_output : List Byte :=
  ((G6CommandBuilder.new .Routing).operation [0x01, 0x01]).build

/-- Source `build_toggle_output_simple(current)`: set the opposite output,
then commit. -/
def build_toggle_output_simple (current : OutputDevice) : List (List Byte) :=
  let target : OutputDevice :=
    match current with
    | .Headphones => .Speakers
    | .Speakers => .Headphones
  [build_set_output target, build_commit_output]

/-- Source `build_set_bass_toggle(enabled)`: DATA `5A 12 07 01 96 18 f32 ..`
followed by the verification read. -/
def build_set_bass_toggle (enabled : Bool) : List (List Byte) :=
  [ (((G6CommandBuilder.new .DataControl).operation
        [0x07, 0x01, 0x96, 0x18]).value' (toggleF32LeBytes enabled)).build,
    build_audio_effect_read 0x18 ]

/-- Source `build_set_surround_toggle(enabled)`. -/
def build_set_surround_toggle (enabled : Bool) : List (List Byte) :=
  [ (((G6CommandBuilder.new .DataControl).operation
        [0x07, 0x01, 0x96, 0x00]).value' (toggleF32LeBytes enabled)).build,
    build_audio_effect_read 0x00 ]

/-- Source `build_set_surround_value(value)`. -/
def build_set_surround_value (value : Nat) : List (List Byte) :=
  [ (((G6CommandBuilder.new .DataControl).operation
        [0x07, 0x01, 0x96, 0x01]).value' (percentToF32LeBytes value)).build,
    build_audio_effect_read 0x01 ]

/-- Source `build_set_crystalizer_toggle(enabled)`. -/
def build_set_crystalizer_toggle (enabled : Bool) : List (List Byte) :=
  [ (((G6CommandBuilder.new .DataControl).operation
        [0x07, 0x01, 0x96, 0x07]).value' (toggleF32LeBytes enabled)).build,
    build_audio_effect_read 0x07 ]

/-- Source `build_set_crystalizer_value(value)`. -/
def build_set_crystalizer_value (value : Nat) : List (List Byte) :=
  [ (((G6CommandBuilder.new .DataControl).operation
        [0x07, 0x01, 0x96, 0x08]).value' (percentToF32LeBytes value)).build,
    build_audio_effect_read 0x08 ]

/-- Source `build_set_smart_volume_toggle(enabled)`. -/
def build_set_smart_volume_toggle (enabled : Bool) : List (List Byte) :=
  [ (((G6CommandBuilder.new .DataControl).operation
        [0x07, 0x01, 0x96, 0x04]).value' (toggleF32LeBytes enabled)).build,
    build_audio_effect_read 0x04 ]

/-- Source `build_set_smart_volume_value(value)`. -/
def build_set_smart_volume_value (value : Nat) : List (List Byte) :=
  [ (((G6CommandBuilder.new .DataControl).operation
        [0x07, 0x01, 0x96, 0x05]).value' (percentToF32LeBytes value)).build,
    build_audio_effect_read 0x05 ]

/-- Source `build_set_dialog_plus_toggle(enabled)`. -/
def build_set_dialog_plus_toggle (enabled : Bool) : List (List Byte) :=
  [ (((G6CommandBuilder.new .DataControl).operation
        [0x07, 0x01, 0x96, 0x02]).value' (toggleF32LeBytes enabled)).build,
    build_audio_effect_read 0x02 ]

/-- Source `build_set_dialog_plus_value(value)`. -/
def build_set_dialog_plus_value (value : Nat) : List (List Byte) :=
  [ (((G6CommandBuilder.new .DataControl).operation
        [0x07, 0x01, 0x96, 0x03]).value' (percentToF32LeBytes value)).build,
    build_audio_effect_read 0x03 ]

/-! ### Settings (`g6_spec.rs`, `struct G6Settings`) -/

/-- Source `struct EqualizerBand` (f32 fields modelled exactly). -/
structure EqualizerBand where
  frequency : F32Val
  gain : F32Val
deriving DecidableEq

/-- Source `struct EqualizerConfig`. -/
structure EqualizerConfig where
  enabled : EffectState
  bands : List EqualizerBand
deriving DecidableEq

/-- Source `struct ExtendedAudioParams`. -/
structure ExtendedAudioParams where
  param_0x0a : Option F32Val
  param_0x0b : Option F32Val
  param_0x0c : Option F32Val
  param_0x0d : Option F32Val
  param_0x0e : Option F32Val
  param_0x0f : Option F32Val
  param_0x10 : Option F32Val
  param_0x11 : Option F32Val
  param_0x12 : Option F32Val
  param_0x13 : Option F32Val
  param_0x14 : Option F32Val
  param_0x1a : Option F32Val
  param_0x1b : Option F32Val
  param_0x1c : Option F32Val
  param_0x1d : Option F32Val
deriving DecidableEq

/-- Source `struct G6Settings`.  The fields `sbx_enabled`, `digital_filter`
and `audio_config` are modelled from the spec: `g6_device.rs` assigns them
(`settings.sbx_enabled`, `settings.digital_filter`, `settings.audio_config`)
but the `g6_spec.rs` file in the sources does not list them; the spec's
SettingsSnapshot defines them. -/
structure G6Settings where
  output : OutputDevice
  surround_enabled : EffectState
  surround_value : Nat
  crystalizer_enabled : EffectState
  crystalizer_value : Nat
  bass_enabled : EffectState
  bass_value : Nat
  smart_volume_enabled : EffectState
  smart_volume_value : Nat
  smart_volume_preset : Option SmartVolumePreset
  dialog_plus_enabled : EffectState
  dialog_plus_value : Nat
  firmware_info : Option FirmwareInfo
  scout_mode : ScoutModeState
  equalizer : Option EqualizerConfig
  extended_params : Option ExtendedAudioParams
  is_connected : Bool
  last_read_time : Option Nat
  sbx_enabled : EffectState
  digital_filter : Option DigitalFilter
  audio_config : Option AudioConfig
deriving DecidableEq

/-- Source `impl Default for G6Settings` (the spec-modelled fields default
to disabled/absent). -/
def defaultG6Settings : G6Settings where
  output := .Headphones
  surround_enabled := .Disabled
  surround_value := 50
  crystalizer_enabled := .Disabled
  crystalizer_value := 50
  bass_enabled := .Disabled
  bass_value := 50
  smart_volume_enabled := .Disabled
  smart_volume_value := 50
  smart_volume_preset := none
  dialog_plus_enabled := .Disabled
  dialog_plus_value := 50
  firmware_info := none
  scout_mode := .Disabled
  equalizer := none
  extended_params := none
  is_connected := false
  last_read_time := none
  sbx_enabled := .Disabled
  digital_filter := none
  audio_config := none

/-- Source `validate_effect_value` (`g6_spec.rs`): values above 100 are
rejected. -/
def validate_effect_value (value : Nat) : Except G6Error Nat :=
  if value ≤ 100 then .ok value else .error (.validationError value)

/-! ### The device manager (`g6_device.rs`, `G6DeviceManager`)

The HID handle is modelled by `DeviceSim`: the outcomes of future writes
(`true` = success; an exhausted list means writes succeed) and the finite
list of frames the device will deliver to reads (an exhausted list models a
read timeout).  `MgrState` carries the `Option`al handle, the settings
mirror and the `command_active` flag.  Each transactional method returns the
new state, the list of byte vectors actually submitted to `HidDevice::write`
(each is a frame with the `0x00` report id prepended), and its result. -/

structure DeviceSim where
  writeResults : List Bool
  incoming : List (List Byte)
deriving DecidableEq

/-- Outcome of the next `device.write(..)` call. -/
def DeviceSim.popWrite (d : DeviceSim) : Bool × DeviceSim :=
  match d.writeResults with
  | [] => (true, d)
  | b :: rest => (b, { d with writeResults := rest })

/-- Outcome of the next `device.read_timeout(..)` call (`none` = timeout). -/
def DeviceSim.popRead (d : DeviceSim) : Option (List Byte) × DeviceSim :=
  match d.incoming with
  | [] => (none, d)
  | f :: rest => (some f, { d with incoming := rest })

structure MgrState where
  device : Option DeviceSim
  settings : G6Settings
  commandActive : Bool
deriving DecidableEq

/-- The `command_active.store(true, ..)` performed on entry to every
transactional method. -/
def commandEntry (st : MgrState) : MgrState := { st with commandActive := true }

/-- Model of the report-id strip applied to every inbound buffer:
`if buffer[0] == 0x00 && bytes_read > 1 { buffer[1..] } else { buffer[..] }`. -/
def stripReportId : List Byte → List Byte
  | 0 :: b :: rest => b :: rest
  | r => r

/-- The write loop inside `send_commands`: prepend the report id, write
(propagating a write failure), then attempt one acknowledgement read whose
content is only logged. -/
def writeLoop (dev : DeviceSim) (cmds : List (List Byte))
    (trace : List (List Byte)) :
    DeviceSim × List (List Byte) × Except G6Error Unit :=
  match cmds with
  | [] => (dev, trace, .ok ())
  | c :: rest =>
    let (ok, dev1) := dev.popWrite
    if ok then
      let (_, dev2) := dev1.popRead
      writeLoop dev2 rest (trace ++ [0x00 :: c])
    else (dev1, trace, .error .writeFailed)

/-- Source `G6DeviceManager::send_commands`: raise `command_active`, fail if
no device is held, run the write loop, and clear `command_active` on every
exit path. -/
def send_commands (st : MgrState) (cmds : List (List Byte)) :
    MgrState × List (List Byte) × Except G6Error Unit :=
  let st1 := commandEntry st
  let inner : MgrState × List (List Byte) × Except G6Error Unit :=
    match st1.device with
    | none => (st1, [], .error .deviceNotConnected)
    | some dev =>
      let (dev2, trace, r) := writeLoop dev cmds []
      ({ st1 with device := some dev2 }, trace, r)
  ({ inner.1 with commandActive := false }, inner.2.1, inner.2.2)

/-- Source `G6DeviceManager::send_raw_command`: one write, one read (a
timeout yields an empty buffer), report-id strip on the response. -/
def send_raw_command (st : MgrState) (cmd : List Byte) :
    MgrState × List (List Byte) × Except G6Error (List Byte) :=
  let st1 := commandEntry st
  let inner : MgrState × List (List Byte) × Except G6Error (List Byte) :=
    match st1.device with
    | none => (st1, [], .error .deviceNotConnected)
    | some dev =>
      let (ok, dev1) := dev.popWrite
      if ok then
        let (fr, dev2) := dev1.popRead
        ({ st1 with device := some dev2 }, [0x00 :: cmd],
          .ok (stripReportId (fr.getD [])))
      else ({ st1 with device := some dev1 }, [], .error .writeFailed)
  ({ inner.1 with commandActive := false }, inner.2.1, inner.2.2)

/-- The filtered read loop inside `send_read_commands`: strip the report id,
skip frames that are shorter than 2 bytes or do not start with `0x5A`, and
stop at the first frame whose family byte matches the command; every frame
inspected on the way is consumed.  Returns the match (if any) and the frames
still unread. -/
def findResponse (cmdType : Byte) :
    List (List Byte) → Option (List Byte) × List (List Byte)
  | [] => (none, [])
  | raw :: rest =>
    let response := stripReportId raw
    if response.length < 2 ∨ response.getD 0 0 ≠ 0x5a then
      findResponse cmdType rest
    else if response.getD 1 0 = cmdType then (some response, rest)
    else findResponse cmdType rest

/-- The per-command body of `send_read_commands`: commands shorter than 2
bytes are skipped without contributing a response; a failed write
contributes an empty response; otherwise the filtered read loop runs and a
command with no matching frame contributes an empty response. -/
def readCommandsLoop (dev : DeviceSim) :
    List (List Byte) → List (List Byte) × DeviceSim
  | [] => ([], dev)
  | cmd :: rest =>
    if cmd.length < 2 then readCommandsLoop dev rest
    else
      let cmdType := cmd.getD 1 0
      let (ok, dev1) := dev.popWrite
      if ok then
        let (m, remaining) := findResponse cmdType dev1.incoming
        let dev2 : DeviceSim := { dev1 with incoming := remaining }
        let (tailResps, dev3) := readCommandsLoop dev2 rest
        ((m.getD []) :: tailResps, dev3)
      else
        let (tailResps, dev2) := readCommandsLoop dev1 rest
        ([] :: tailResps, dev2)

/-- Source `G6DeviceManager::send_read_commands`. -/
def send_read_commands (st : MgrState) (cmds : List (List Byte)) :
    MgrState × Except G6Error (List (List Byte)) :=
  let st1 := commandEntry st
  let inner : MgrState × Except G6Error (List (List Byte)) :=
    match st1.device with
    | none => (st1, .error .deviceNotConnected)
    | some dev =>
      let (resps, dev2) := readCommandsLoop dev cmds
      ({ st1 with device := some dev2 }, .ok resps)
  ({ inner.1 with commandActive := false }, inner.2)

/-- Source `G6DeviceManager::toggle_output`: read the current output from
the mirror, send the two-frame toggle sequence; the mirror itself is not
written (the listener updates it on the device event). -/
def toggle_output (st : MgrState) :
    MgrState × List (List Byte) × Except G6Error Unit :=
  let current := st.settings.output
  send_commands st (build_toggle_output_simple current)

/-- Source `G6DeviceManager::set_surround`: validate, send the toggle pair
then the value pair, then update the mirror. -/
def set_surround (st : MgrState) (enabled : EffectState) (value : Nat) :
    MgrState × List (List Byte) × Except G6Error Unit :=
  match validate_effect_value value with
  | .error e => (st, [], .error e)
  | .ok _ =>
    let enabled_bool : Bool := enabled = EffectState.Enabled
    let (st1, tr1, r1) := send_commands st (build_set_surround_toggle enabled_bool)
    match r1 with
    | .error e => (st1, tr1, .error e)
    | .ok _ =>
      let (st2, tr2, r2) := send_commands st1 (build_set_surround_value value)
      match r2 with
      | .error e => (st2, tr1 ++ tr2, .error e)
      | .ok _ =>
        ({ st2 with settings :=
            { st2.settings with surround_enabled := enabled,
                                surround_value := value } },
          tr1 ++ tr2, .ok ())

/-- Source `G6DeviceManager::set_crystalizer`. -/
def set_crystalizer (st : MgrState) (enabled : EffectState) (value : Nat) :
    MgrState × List (List Byte) × Except G6Error Unit :=
  match validate_effect_value value with
  | .error e => (st, [], .error e)
  | .ok _ =>
    let enabled_bool : Bool := enabled = EffectState.Enabled
    let (st1, tr1, r1) := send_commands st (build_set_crystalizer_toggle enabled_bool)
    match r1 with
    | .error e => (st1, tr1, .error e)
    | .ok _ =>
      let (st2, tr2, r2) := send_commands st1 (build_set_crystalizer_value value)
      match r2 with
      | .error e => (st2, tr1 ++ tr2, .error e)
      | .ok _ =>
        ({ st2 with settings :=
            { st2.settings with crystalizer_enabled := enabled,
                                crystalizer_value := value } },
          tr1 ++ tr2, .ok ())

/-- Source `G6DeviceManager::set_bass`: only the toggle pair is sent; the
mirror stores both the state and the (locally kept) value. -/
def set_bass (st : MgrState) (enabled : EffectState) (value : Nat) :
    MgrState × List (List Byte) × Except G6Error Unit :=
  match validate_effect_value value with
  | .error e => (st, [], .error e)
  | .ok _ =>
    let enabled_bool : Bool := enabled = EffectState.Enabled
    let (st1, tr1, r1) := send_commands st (build_set_bass_toggle enabled_bool)
    match r1 with
    | .error e => (st1, tr1, .error e)
    | .ok _ =>
      ({ st1 with settings :=
          { st1.settings with bass_enabled := enabled, bass_value := value } },
        tr1, .ok ())

/-- Source `G6DeviceManager::set_smart_volume`. -/
def set_smart_volume (st : MgrState) (enabled : EffectState) (value : Nat) :
    MgrState × List (List Byte) × Except G6Error Unit :=
  match validate_effect_value value with
  | .error e => (st, [], .error e)
  | .ok _ =>
    let enabled_bool : Bool := enabled = EffectState.Enabled
    let (st1, tr1, r1) :=
      send_commands st (build_set_smart_volume_toggle enabled_bool)
    match r1 with
    | .error e => (st1, tr1, .error e)
    | .ok _ =>
      let (st2, tr2, r2) := send_commands st1 (build_set_smart_volume_value value)
      match r2 with
      | .error e => (st2, tr1 ++ tr2, .error e)
      | .ok _ =>
        ({ st2 with settings :=
            { st2.settings with smart_volume_enabled := enabled,
                                smart_volume_value := value } },
          tr1 ++ tr2, .ok ())

/-- Source `G6DeviceManager::set_dialog_plus`. -/
def set_dialog_plus (st : MgrState) (enabled : EffectState) (value : Nat) :
    MgrState × List (List Byte) × Except G6Error Unit :=
  match validate_effect_value value with
  | .error e => (st, [], .error e)
  | .ok _ =>
    let enabled_bool : Bool := enabled = EffectState.Enabled
    let (st1, tr1, r1) :=
      send_commands st (build_set_dialog_plus_toggle enabled_bool)
    match r1 with
    | .error e => (st1, tr1, .error e)
    | .ok _ =>
      let (st2, tr2, r2) := send_commands st1 (build_set_dialog_plus_value value)
      match r2 with
      | .error e => (st2, tr1 ++ tr2, .error e)
      | .ok _ =>
        ({ st2 with settings :=
            { st2.settings with dialog_plus_enabled := enabled,
                                dialog_plus_value := value } },
          tr1 ++ tr2, .ok ())

/-- The listener's event application (the `match event` block in
`start_listener`): each event overwrites its field of the mirror. -/
def applyEvent (s : G6Settings) : DeviceEvent → G6Settings
  | .OutputChanged o => { s with output := o }
  | .SbxModeChanged st => { s with sbx_enabled := st }
  | .ScoutModeChanged st => { s with scout_mode := st }
  | .SurroundToggled st => { s with surround_enabled := st }
  | .CrystalizerToggled st => { s with crystalizer_enabled := st }
  | .BassToggled st => { s with bass_enabled := st }
  | .SmartVolumeToggled st => { s with smart_volume_enabled := st }
  | .DialogPlusToggled st => { s with dialog_plus_enabled := st }
  | .SurroundValueChanged v => { s with surround_value := v }
  | .CrystalizerValueChanged v => { s with crystalizer_value := v }
  | .BassValueChanged v => { s with bass_value := v }
  | .SmartVolumeValueChanged v => { s with smart_volume_value := v }
  | .DialogPlusValueChanged v => { s with dialog_plus_value := v }
  | .DigitalFilterChanged f => { s with digital_filter := some f }
  | .AudioConfigChanged c => { s with audio_config := some c }

/-! ### Claim-side observation helpers -/

/-- The integer payload of a slider (`..ValueChanged`) event — the decoded
EffectValue of the spec. -/
def eventValue : DeviceEvent → Option Nat
  | .SurroundValueChanged v => some v
  | .CrystalizerValueChanged v => some v
  | .BassValueChanged v => some v
  | .SmartVolumeValueChanged v => some v
  | .DialogPlusValueChanged v => some v
  | _ => none

/-- The state payload of a 0x11-family toggle (`..Toggled`) event.  The SBX
and Scout events come from the 0x26 family and are excluded. -/
def eventToggleState : DeviceEvent → Option EffectState
  | .SurroundToggled s => some s
  | .CrystalizerToggled s => some s
  | .BassToggled s => some s
  | .SmartVolumeToggled s => some s
  | .DialogPlusToggled s => some s
  | _ => none

/-- Spec-side reading of the enabling rule for a decoded float `v`: the
decode is Enabled when `v` exceeds `0.0001` in the IEEE ordering, that is,
when `v` is positive infinity or a finite value whose exact rational value
exceeds `13743895 / 2^37` (the exact value of the f32 literal `0.0001`). -/
def specEnabled (v : F32Val) : Prop :=
  v = .inf false ∨ ∃ q, f32Rat v = some q ∧ (13743895 : ℚ) / 2 ^ 37 < q

/-! ### Shared lemmas about the parsers -/

theorem f32RoundAsU8_le_255 (w : F32Val) : f32RoundAsU8 w ≤ 255 := by
  cases w with
  | nan => simp [f32RoundAsU8]
  | inf neg => by_cases h : neg <;> simp [f32RoundAsU8, h]
  | fin n =>
    simp only [f32RoundAsU8]
    split
    · omega
    · exact Nat.min_le_left _ _

theorem f32GtThresh_iff_specEnabled (w : F32Val) :
    f32GtThresh w = true ↔ specEnabled w := by
  cases w with
  | nan => simp [f32GtThresh, specEnabled, f32Rat]
  | inf neg =>
    cases neg <;> simp [f32GtThresh, specEnabled, f32Rat]
  | fin n =>
    simp only [f32GtThresh, specEnabled, f32Rat, decide_eq_true_eq,
      Option.some.injEq, F32Val.fin.injEq, exists_eq_left']
    constructor
    · intro h
      refine Or.inr ?_
      rw [div_lt_div_iff₀ (by positivity) (by positivity)]
      have h' : (THRESH_N : ℚ) < (n : ℚ) := by exact_mod_cast h
      have : ((13743895 * 2 ^ 112 : ℤ) : ℚ) = (13743895 : ℚ) * 2 ^ 112 := by
        push_cast
        ring
      calc (13743895 : ℚ) * 2 ^ 149
          = ((13743895 : ℚ) * 2 ^ 112) * 2 ^ 37 := by ring
        _ < (n : ℚ) * 2 ^ 37 := by
            have := h'
            rw [THRESH_N] at this
            push_cast at this
            nlinarith [this]
    · rintro (h | h)
      · exact absurd h (by simp)
      · rw [div_lt_div_iff₀ (by positivity) (by positivity)] at h
        have h2 : (13743895 : ℚ) * 2 ^ 112 < (n : ℚ) := by nlinarith [h]
        have : ((THRESH_N : ℤ) : ℚ) < (n : ℚ) := by
          rw [THRESH_N]
          push_cast
          nlinarith [h2]
        exact_mod_cast this

theorem mem_parse_output_event_shape {p : List Byte} {e : DeviceEvent}
    (h : e ∈ (G6EventParser.parse_output_event p).toList) :
    ∃ d, e = .OutputChanged d := by
  unfold G6EventParser.parse_output_event at h
  split_ifs at h <;> simp_all <;> exact ⟨_, rfl⟩

theorem mem_gamingAt_shape {p : List Byte} {i : Nat} {e : DeviceEvent}
    (h : e ∈ G6EventParser.gamingAt p i) :
    (∃ s, e = .SbxModeChanged s) ∨ ∃ s, e = .ScoutModeChanged s := by
  unfold G6EventParser.gamingAt at h
  split_ifs at h <;> simp_all <;>
    first
      | exact Or.inl ⟨_, rfl⟩
      | exact Or.inr ⟨_, rfl⟩

theorem mem_parse_gaming_shape {p : List Byte} {e : DeviceEvent}
    (h : e ∈ G6EventParser.parse_gaming_mode_events p) :
    (∃ s, e = .SbxModeChanged s) ∨ ∃ s, e = .ScoutModeChanged s := by
  unfold G6EventParser.parse_gaming_mode_events at h
  split_ifs at h
  · simp at h
  · simp only [List.mem_cons, List.mem_singleton, List.not_mem_nil] at h
    rcases h with h | h | h
    · exact Or.inl ⟨_, h⟩
    · exact Or.inr ⟨_, h⟩
    · exact absurd h (by simp)
  · rw [List.mem_flatMap] at h
    obtain ⟨i, _, hi⟩ := h
    exact mem_gamingAt_shape hi

theorem mem_parse_filter_shape {p : List Byte} {e : DeviceEvent}
    (h : e ∈ (G6EventParser.parse_digital_filter_event p).toList) :
    ∃ f, e = .DigitalFilterChanged f := by
  unfold G6EventParser.parse_digital_filter_event at h
  split_ifs at h <;> simp_all <;> exact ⟨_, rfl⟩

theorem mem_parse_config_shape {p : List Byte} {e : DeviceEvent}
    (h : e ∈ (G6EventParser.parse_audio_config_event p).toList) :
    ∃ c, e = .AudioConfigChanged c := by
  unfold G6EventParser.parse_audio_config_event at h
  split_ifs at h <;> simp_all

/-! ## C1 — every codec frame is 64 bytes and starts with 0x5A -/

/-- C1: every command frame produced by `G6CommandBuilder::build` (hence by
every convenience builder, which all finish through it) and by the legacy
`build_command` is exactly 64 bytes long with byte 0 equal to 0x5A, for all
inputs — including operation/value byte sequences whose combined length
exceeds 64, which `Vec::resize` truncates back to 64. -/
theorem c1_command_frames_wellformed :
    (∀ (fam : CommandFamily) (ops : List Byte) (inter : Option Nat)
        (feat : Option Byte) (val : Option (List Byte)),
      (G6CommandBuilder.mk fam ops inter feat val).build.length = 64 ∧
      (G6CommandBuilder.mk fam ops inter feat val).build.getD 0 0 = 0x5a) ∧
    ∀ (request_type : Nat) (feature : Byte) (value : Nat),
      (build_command request_type feature value).length = 64 ∧
      (build_command request_type feature value).getD 0 0 = 0x5a := by
  constructor
  · intro fam ops inter feat val
    refine ⟨resizePad_length _ _, ?_⟩
    simp only [G6CommandBuilder.build, List.cons_append]
    exact resizePad_getD_zero _ (by norm_num [PAYLOAD_SIZE]) _ _
  · intro rt f v
    refine ⟨resizePad_length _ _, ?_⟩
    simp only [build_command, List.cons_append, List.nil_append]
    exact resizePad_getD_zero _ (by norm_num [PAYLOAD_SIZE]) _ _

/-! ## C9 — `command_active` is cleared on every exit path -/

/-- C9: every transactional method (`send_commands`, `send_raw_command`,
`send_read_commands`) raises `command_active` on entry (`commandEntry`) and
leaves it `false` when it returns, on every exit path — success, missing
device, or write failure. -/
theorem c9_command_active_cleared :
    (∀ st : MgrState, (commandEntry st).commandActive = true) ∧
    (∀ (st : MgrState) (cmds : List (List Byte)),
      (send_commands st cmds).1.commandActive = false) ∧
    (∀ (st : MgrState) (cmd : List Byte),
      (send_raw_command st cmd).1.commandActive = false) ∧
    ∀ (st : MgrState) (cmds : List (List Byte)),
      (send_read_commands st cmds).1.commandActive = false := by
  exact ⟨fun _ => rfl, fun _ _ => rfl, fun _ _ => rfl, fun _ _ => rfl⟩

/-! ## C6 — out-of-range effect values are rejected before any I/O -/

/-- C6: for every effect value above 100, each of the five `set_<effect>`
operations returns a validation error immediately: no frame is written to
the device and the manager state (in particular the settings mirror) is
unchanged. -/
theorem c6_validation_rejects_early (st : MgrState) (enabled : EffectState)
    (value : Nat) (h : 100 < value) :
    set_surround st enabled value = (st, [], .error (.validationError value)) ∧
    set_crystalizer st enabled value = (st, [], .error (.validationError value)) ∧
    set_bass st enabled value = (st, [], .error (.validationError value)) ∧
    set_smart_volume st enabled value = (st, [], .error (.validationError value)) ∧
    set_dialog_plus st enabled value = (st, [], .error (.validationError value)) := by
  have hv : validate_effect_value value = .error (.validationError value) := by
    simp [validate_effect_value, Nat.not_le.mpr h]
  refine ⟨?_, ?_, ?_, ?_, ?_⟩ <;>
    simp [set_surround, set_crystalizer, set_bass, set_smart_volume,
      set_dialog_plus, hv]

/-- Witness for C6 at a concrete state and the concrete value 150. -/
theorem c6_validation_rejects_early_witness :
    set_surround ⟨none, defaultG6Settings, false⟩ .Enabled 150
      = (⟨none, defaultG6Settings, false⟩, [], .error (.validationError 150)) :=
  (c6_validation_rejects_early ⟨none, defaultG6Settings, false⟩ .Enabled 150
    (by norm_num)).1

/-! ## C5 — the 0x26 0x0B gaming report emits both mode events -/

/-- C5: every frame whose bytes 1..5 are `26 0B 08 FF FF` (with the 0x5A
prefix and mode byte `m` at index 6) makes the event parser emit exactly the
pair `SbxModeChanged (m AND 1 ≠ 0)` and `ScoutModeChanged (m AND 2 ≠ 0)`,
in that order. -/
theorem c5_gaming_report_emits_both (packet : List Byte)
    (hlen : 7 ≤ packet.length) (h0 : packet.getD 0 0 = 0x5a)
    (h1 : packet.getD 1 0 = 0x26) (h2 : packet.getD 2 0 = 0x0b)
    (h3 : packet.getD 3 0 = 0x08) (h4 : packet.getD 4 0 = 0xff)
    (h5 : packet.getD 5 0 = 0xff) :
    G6EventParser.parse packet =
      [ .SbxModeChanged
          (if packet.getD 6 0 &&& 0x01 ≠ 0 then .Enabled else .Disabled),
        .ScoutModeChanged
          (if packet.getD 6 0 &&& 0x02 ≠ 0 then .Enabled else .Disabled) ] := by
  have l3 : ¬ packet.length < 3 := by omega
  have l7 : ¬ packet.length < 7 := by omega
  simp only [List.getD_eq_getElem?_getD] at h0 h1 h2
  simp [G6EventParser.parse, G6EventParser.parse_output_event,
    G6EventParser.parse_gaming_mode_events,
    G6EventParser.parse_audio_effect_events,
    G6EventParser.parse_digital_filter_event,
    G6EventParser.parse_audio_config_event,
    prefixByte, h0, h1, h2, l3, l7]

/-- Witness for C5: the scenario frame `5A 26 0B 08 FF FF 03 00 …` yields
both SbxModeChanged(Enabled) and ScoutModeChanged(Enabled). -/
theorem c5_gaming_report_emits_both_witness :
    G6EventParser.parse
        ([0x5a, 0x26, 0x0b, 0x08, 0xff, 0xff, 0x03] ++ List.replicate 57 0)
      = [.SbxModeChanged .Enabled, .ScoutModeChanged .Enabled] := by
  have h := c5_gaming_report_emits_both
    ([0x5a, 0x26, 0x0b, 0x08, 0xff, 0xff, 0x03] ++ List.replicate 57 0)
    (by simp) (by decide) (by decide) (by decide) (by decide) (by decide)
    (by decide)
  simpa using h

/-! ## C4 — which frames produce an OutputChanged event -/

/-- Characterization of `parse_output_event`: it fires on every 0x2C-family
frame of length at least 5 whose byte 4 is 0x02 or 0x04 — bytes 2 and 3 are
not inspected. -/
theorem parse_output_event_eq_some (p : List Byte) (d : OutputDevice) :
    G6EventParser.parse_output_event p = some (.OutputChanged d) ↔
      5 ≤ p.length ∧ p.getD 1 0 = 0x2c ∧
        ((p.getD 4 0 = 0x02 ∧ d = .Speakers) ∨
         (p.getD 4 0 = 0x04 ∧ d = .Headphones)) := by
  unfold G6EventParser.parse_output_event
  split_ifs with hA hB hC
  · push_neg at hA
    constructor
    · intro h
      exact absurd h (by simp)
    · rintro ⟨h5, h2c, _⟩
      rcases hA with h | h
      · omega
      · exact absurd h2c h
  · push_neg at hA
    simp only [Option.some.injEq, DeviceEvent.OutputChanged.injEq]
    constructor
    · rintro rfl
      exact ⟨by omega, hA.2, Or.inr ⟨hB, rfl⟩⟩
    · rintro ⟨_, _, ⟨h02, rfl⟩ | ⟨_, rfl⟩⟩
      · rw [hB] at h02
        exact absurd h02 (by norm_num)
      · rfl
  · push_neg at hA
    simp only [Option.some.injEq, DeviceEvent.OutputChanged.injEq]
    constructor
    · rintro rfl
      exact ⟨by omega, hA.2, Or.inl ⟨hC, rfl⟩⟩
    · rintro ⟨_, _, ⟨_, rfl⟩ | ⟨h04, rfl⟩⟩
      · rfl
      · rw [hC] at h04
        exact absurd h04 (by norm_num)
  · push_neg at hA
    constructor
    · intro h
      exact absurd h (by simp)
    · rintro ⟨_, _, ⟨h02, _⟩ | ⟨h04, _⟩⟩
      · exact absurd h02 hC
      · exact absurd h04 hB

/-- Every event that `audioEventFor` emits carries the enabled state it was
given (toggle features) or the percentage it was given (slider features). -/
theorem mem_audioEventFor {f : Byte} {en : EffectState} {pc : Nat}
    {e : DeviceEvent} (h : e ∈ G6EventParser.audioEventFor f en pc) :
    eventToggleState e = some en ∨ eventValue e = some pc := by
  unfold G6EventParser.audioEventFor at h
  repeat' split at h
  all_goals simp only [List.mem_singleton, List.not_mem_nil] at h
  all_goals subst h
  all_goals first
    | exact Or.inl rfl
    | exact Or.inr rfl

/-- Shape of the audio-effect events: each carries either a toggle state or
a slider value. -/
theorem mem_parse_audio_shape {p : List Byte} {e : DeviceEvent}
    (h : e ∈ G6EventParser.parse_audio_effect_events p) :
    (∃ s, eventToggleState e = some s) ∨ ∃ v, eventValue e = some v := by
  unfold G6EventParser.parse_audio_effect_events at h
  by_cases hg : p.length < 11 ∨ p.getD 1 0 ≠ 0x11 ∨ p.getD 2 0 ≠ 0x08
  · rw [if_pos hg] at h
    exact absurd h (by simp)
  · rw [if_neg hg] at h
    rcases mem_audioEventFor h with h' | h'
    · exact Or.inl ⟨_, h'⟩
    · exact Or.inr ⟨_, h'⟩

/-- C4 (amended): under the 0x5A prefix gate, an `OutputChanged` event is
emitted exactly for the frames of family byte 0x2C, length at least 5, and
byte 4 equal to 0x02 (Speakers) or 0x04 (Headphones) — regardless of bytes
2 and 3; and every frame whose family byte is none of
0x2C/0x26/0x11/0x6C/0x3C produces zero events. -/
theorem c4_output_event_exactly (packet : List Byte)
    (hlen : 3 ≤ packet.length) (h0 : packet.getD 0 0 = 0x5a) :
    (∀ d, DeviceEvent.OutputChanged d ∈ G6EventParser.parse packet ↔
      5 ≤ packet.length ∧ packet.getD 1 0 = 0x2c ∧
        ((packet.getD 4 0 = 0x02 ∧ d = .Speakers) ∨
         (packet.getD 4 0 = 0x04 ∧ d = .Headphones))) ∧
    (packet.getD 1 0 ≠ 0x2c → packet.getD 1 0 ≠ 0x26 →
     packet.getD 1 0 ≠ 0x11 → packet.getD 1 0 ≠ 0x6c →
     packet.getD 1 0 ≠ 0x3c → G6EventParser.parse packet = []) := by
  have l3 : ¬ packet.length < 3 := by omega
  have hgate : ¬ (packet.length < 3 ∨ packet.getD 0 0 ≠ prefixByte) := by
    push_neg
    exact ⟨by omega, h0⟩
  constructor
  · intro d
    constructor
    · intro h
      unfold G6EventParser.parse at h
      rw [if_neg hgate] at h
      simp only [List.mem_append] at h
      rcases h with ((((h | h) | h) | h) | h)
      · rw [Option.mem_toList, Option.mem_def] at h
        exact (parse_output_event_eq_some packet d).mp h
      · rcases mem_parse_gaming_shape h with ⟨s, hs⟩ | ⟨s, hs⟩ <;> simp at hs
      · rcases mem_parse_audio_shape h with ⟨s, hs⟩ | ⟨v, hv⟩
        · simp [eventToggleState] at hs
        · simp [eventValue] at hv
      · obtain ⟨f, hf⟩ := mem_parse_filter_shape h
        simp at hf
      · obtain ⟨c, hc⟩ := mem_parse_config_shape h
        simp at hc
    · intro h
      unfold G6EventParser.parse
      rw [if_neg hgate]
      simp only [List.mem_append]
      refine Or.inl (Or.inl (Or.inl (Or.inl ?_)))
      rw [Option.mem_toList, Option.mem_def]
      exact (parse_output_event_eq_some packet d).mpr h
  · intro n2c n26 n11 n6c n3c
    have hout : G6EventParser.parse_output_event packet = none := by
      unfold G6EventParser.parse_output_event
      rw [if_pos (Or.inr n2c)]
    have hgam : G6EventParser.parse_gaming_mode_events packet = [] := by
      unfold G6EventParser.parse_gaming_mode_events
      rw [if_pos (Or.inr n26)]
    have haud : G6EventParser.parse_audio_effect_events packet = [] := by
      unfold G6EventParser.parse_audio_effect_events
      rw [if_pos (Or.inr (Or.inl n11))]
    have hfil : G6EventParser.parse_digital_filter_event packet = none := by
      unfold G6EventParser.parse_digital_filter_event
      rw [if_pos (Or.inr (Or.inl n6c))]
    have hcfg : G6EventParser.parse_audio_config_event packet = none := by
      unfold G6EventParser.parse_audio_config_event
      rw [if_pos (Or.inr n3c)]
    unfold G6EventParser.parse
    rw [if_neg hgate, hout, hgam, haud, hfil, hcfg]
    rfl

/-- Witness for C4 (amended), on a frame whose bytes 2..3 are not
`05 01`: the output event is still emitted. -/
theorem c4_output_event_exactly_witness :
    DeviceEvent.OutputChanged .Speakers
      ∈ G6EventParser.parse [0x5a, 0x2c, 0x00, 0x00, 0x02] :=
  ((c4_output_event_exactly [0x5a, 0x2c, 0x00, 0x00, 0x02] (by norm_num)
      (by decide)).1 .Speakers).mpr
    ⟨by norm_num, by decide, Or.inl ⟨by decide, rfl⟩⟩

/-- Counterexample to C4 as stated: the frame `5A 2C 00 00 02` matches none
of the spec's event patterns (bytes 1..3 are not `2C 05 01`, and its family
byte matches no other listed pattern), yet the parser emits
`OutputChanged(Speakers)` rather than zero events. -/
theorem c4_counterexample :
    G6EventParser.parse [0x5a, 0x2c, 0x00, 0x00, 0x02]
        = [.OutputChanged .Speakers] ∧
      ¬([0x5a, 0x2c, 0x00, 0x00, 0x02].getD 2 0 = 0x05 ∧
        [0x5a, 0x2c, 0x00, 0x00, 0x02].getD 3 0 = 0x01) := by
  decide

/-! ## C2 — decoded effect values: saturation, not clamping -/

/-- An event carrying a toggle state carries no slider value. -/
theorem eventValue_eq_none_of_toggle {e : DeviceEvent} {s : EffectState}
    (h : eventToggleState e = some s) : eventValue e = none := by
  cases e <;> simp_all [eventToggleState, eventValue]

/-- Counterexample to C2 as stated: the audio-effect report carrying the
float `2.0` (bytes `00 00 00 40`) decodes to the effect value 200, which
exceeds 100 — the saturating `as u8` cast clamps to `[0, 255]`, not to
`[0, 100]`. -/
theorem c2_counterexample :
    G6EventParser.parse
        [0x5a, 0x11, 0x08, 0x01, 0x00, 0x96, 0x01, 0x00, 0x00, 0x00, 0x40]
        = [.SurroundValueChanged 200] ∧
      ¬ 200 ≤ 100 := by
  constructor
  · decide
  · norm_num

/-- C2 (amended): every EffectValue decoded by the event parser's
0x11-family branch equals `round(v * 100.0)` (computed in binary32)
converted with Rust's saturating `as u8` cast — so it lies in `[0, 255]`
(NaN giving 0), not necessarily in `[0, 100]`. -/
theorem c2_effect_value_saturated (packet : List Byte) (e : DeviceEvent)
    (v : Nat) (he : e ∈ G6EventParser.parse packet)
    (hv : eventValue e = some v) :
    v = f32RoundAsU8 (f32Mul100 (f32FromLeBytes (packet.getD 7 0)
        (packet.getD 8 0) (packet.getD 9 0) (packet.getD 10 0))) ∧
      v ≤ 255 := by
  by_cases hg : packet.length < 3 ∨ packet.getD 0 0 ≠ prefixByte
  · rw [G6EventParser.parse, if_pos hg] at he
    exact absurd he (by simp)
  · rw [G6EventParser.parse, if_neg hg] at he
    simp only [List.mem_append] at he
    rcases he with ((((h | h) | h) | h) | h)
    · obtain ⟨d, rfl⟩ := mem_parse_output_event_shape h
      simp [eventValue] at hv
    · rcases mem_parse_gaming_shape h with ⟨s, rfl⟩ | ⟨s, rfl⟩ <;>
        simp [eventValue] at hv
    · unfold G6EventParser.parse_audio_effect_events at h
      by_cases hga : packet.length < 11 ∨ packet.getD 1 0 ≠ 0x11 ∨
          packet.getD 2 0 ≠ 0x08
      · rw [if_pos hga] at h
        exact absurd h (by simp)
      · rw [if_neg hga] at h
        rcases mem_audioEventFor h with ht | hval
        · rw [eventValue_eq_none_of_toggle ht] at hv
          exact absurd hv (by simp)
        · rw [hval] at hv
          obtain rfl := (Option.some.inj hv).symm
          exact ⟨rfl, f32RoundAsU8_le_255 _⟩
    · obtain ⟨f, rfl⟩ := mem_parse_filter_shape h
      simp [eventValue] at hv
    · obtain ⟨c, rfl⟩ := mem_parse_config_shape h
      simp [eventValue] at hv

/-- Witness for C2 (amended): the crystalizer-value report carrying the
float `0.75` (bytes `00 00 40 3F`) decodes to the value 75. -/
theorem c2_effect_value_saturated_witness :
    (75 : Nat) = f32RoundAsU8 (f32Mul100 (f32FromLeBytes 0x00 0x00 0x40 0x3f))
      ∧ (75 : Nat) ≤ 255 :=
  c2_effect_value_saturated
    [0x5a, 0x11, 0x08, 0x01, 0x00, 0x96, 0x08, 0x00, 0x00, 0x40, 0x3f]
    (.CrystalizerValueChanged 75) 75 (by decide) rfl

/-! ## C3 — the enabled test is a signed comparison, not an absolute one -/

/-- Counterexample to C3 as stated: the audio-effect response carrying the
float `-1.0` (bytes `00 00 80 BF`) satisfies `abs v > 0.0001` yet decodes to
Disabled, because the code compares `v > 0.0001` without taking the absolute
value. -/
theorem c3_counterexample :
    G6ResponseParser.parse
        [0x5a, 0x11, 0x08, 0x01, 0x00, 0x96, 0x00, 0x00, 0x00, 0x80, 0xbf]
        = .ok (.EffectState .Disabled (.fin (-(2 ^ 149)))) ∧
      (13743895 : ℚ) / 2 ^ 37 < |((-(2 ^ 149) : ℤ) : ℚ) / 2 ^ 149| := by
  constructor
  · decide
  · rw [show ((-(2 ^ 149) : ℤ) : ℚ) / 2 ^ 149 = -1 by push_cast; ring]
    rw [abs_neg, abs_one]
    rw [div_lt_one (by positivity)]
    norm_num

/-- C3 (amended): for every 0x11 0x08 effect-state decode — by the response
parser and by the event parser — the decoded state is Enabled if and only if
the decoded float exceeds `0.0001` in the IEEE ordering (`specEnabled`):
positive infinity, or a finite value greater than the exact rational value
`13743895 / 2^37` of the literal.  Negative values and NaN decode as
Disabled even when their magnitude exceeds `0.0001`. -/
theorem c3_enabled_iff_signed_threshold (resp : List Byte)
    (hlen : 11 ≤ resp.length) (h1 : resp.getD 1 0 = 0x11)
    (h2 : resp.getD 2 0 = 0x08) :
    (∃ st, G6ResponseParser.parse resp =
        .ok (.EffectState st (f32FromLeBytes (resp.getD 7 0) (resp.getD 8 0)
          (resp.getD 9 0) (resp.getD 10 0))) ∧
        (st = .Enabled ↔ specEnabled (f32FromLeBytes (resp.getD 7 0)
          (resp.getD 8 0) (resp.getD 9 0) (resp.getD 10 0)))) ∧
    ∀ e ∈ G6EventParser.parse resp, ∀ st, eventToggleState e = some st →
      (st = .Enabled ↔ specEnabled (f32FromLeBytes (resp.getD 7 0)
        (resp.getD 8 0) (resp.getD 9 0) (resp.getD 10 0))) := by
  have hiff : ∀ st : EffectState,
      st = (if f32GtThresh (f32FromLeBytes (resp.getD 7 0) (resp.getD 8 0)
          (resp.getD 9 0) (resp.getD 10 0)) then EffectState.Enabled
        else EffectState.Disabled) →
      (st = .Enabled ↔ specEnabled (f32FromLeBytes (resp.getD 7 0)
        (resp.getD 8 0) (resp.getD 9 0) (resp.getD 10 0))) := by
    intro st hst
    by_cases hgt : f32GtThresh (f32FromLeBytes (resp.getD 7 0) (resp.getD 8 0)
        (resp.getD 9 0) (resp.getD 10 0))
    · rw [hst, if_pos hgt]
      simp only [true_iff]
      exact (f32GtThresh_iff_specEnabled _).mp hgt
    · rw [hst, if_neg hgt]
      constructor
      · intro hds
        exact absurd hds (by simp)
      · intro hs
        exact absurd ((f32GtThresh_iff_specEnabled _).mpr hs) hgt
  constructor
  · rw [G6ResponseParser.parse,
      if_neg (show ¬ resp.length < 3 by omega),
      if_neg (by rintro ⟨ha, _⟩; rw [h1] at ha; exact absurd ha (by norm_num)),
      if_pos ⟨h1, h2⟩]
    rw [G6ResponseParser.parse_audio_effect,
      if_neg (show ¬ resp.length < 11 by omega)]
    exact ⟨_, rfl, hiff _ rfl⟩
  · intro e he st hst
    by_cases hg : resp.length < 3 ∨ resp.getD 0 0 ≠ prefixByte
    · rw [G6EventParser.parse, if_pos hg] at he
      exact absurd he (by simp)
    · rw [G6EventParser.parse, if_neg hg] at he
      simp only [List.mem_append] at he
      rcases he with ((((h | h) | h) | h) | h)
      · obtain ⟨d, rfl⟩ := mem_parse_output_event_shape h
        simp [eventToggleState] at hst
      · rcases mem_parse_gaming_shape h with ⟨s, rfl⟩ | ⟨s, rfl⟩ <;>
          simp [eventToggleState] at hst
      · unfold G6EventParser.parse_audio_effect_events at h
        by_cases hga : resp.length < 11 ∨ resp.getD 1 0 ≠ 0x11 ∨
            resp.getD 2 0 ≠ 0x08
        · rw [if_pos hga] at h
          exact absurd h (by simp)
        · rw [if_neg hga] at h
          rcases mem_audioEventFor h with ht | hval
          · rw [ht] at hst
            exact hiff st (Option.some.inj hst).symm
          · rw [eventValue_eq_none_of_toggle hst] at hval
            exact absurd hval (by simp)
      · obtain ⟨f, rfl⟩ := mem_parse_filter_shape h
        simp [eventToggleState] at hst
      · obtain ⟨c, rfl⟩ := mem_parse_config_shape h
        simp [eventToggleState] at hst

/-- Witness for C3 (amended): the report carrying the float `1.0` (bytes
`00 00 80 3F`) decodes to Enabled, and `1.0` exceeds the threshold. -/
theorem c3_enabled_iff_signed_threshold_witness :
    (∃ st, G6ResponseParser.parse
        [0x5a, 0x11, 0x08, 0x01, 0x00, 0x96, 0x00, 0x00, 0x00, 0x80, 0x3f] =
        .ok (.EffectState st (f32FromLeBytes 0x00 0x00 0x80 0x3f)) ∧
        (st = .Enabled ↔ specEnabled (f32FromLeBytes 0x00 0x00 0x80 0x3f))) ∧
    ∀ e ∈ G6EventParser.parse
        [0x5a, 0x11, 0x08, 0x01, 0x00, 0x96, 0x00, 0x00, 0x00, 0x80, 0x3f],
      ∀ st, eventToggleState e = some st →
        (st = .Enabled ↔ specEnabled (f32FromLeBytes 0x00 0x00 0x80 0x3f)) :=
  c3_enabled_iff_signed_threshold
    [0x5a, 0x11, 0x08, 0x01, 0x00, 0x96, 0x00, 0x00, 0x00, 0x80, 0x3f]
    (by norm_num) (by decide) (by decide)

/-! ## C7 — ASCII firmware decoding -/

theorem findZeroIdx_append_zero (content tail : List Byte)
    (hnz : ∀ b ∈ content, b ≠ 0) :
    ∀ i, findZeroIdx i (content ++ 0 :: tail) = some (i + content.length) := by
  induction content with
  | nil => intro i; simp [findZeroIdx]
  | cons b bs ih =>
    intro i
    have hb : b ≠ 0 := hnz b (List.mem_cons_self b bs)
    have ihs := ih (fun x hx => hnz x (List.mem_cons_of_mem b hx)) (i + 1)
    rw [List.cons_append, findZeroIdx, if_neg hb, ihs, List.length_cons]
    congr 1
    omega

/-- Computation of `parse_ascii_firmware` on a frame of the shape
`b0 07 10 <content> 00 <tail>` where the content holds no zero byte. -/
theorem parse_ascii_firmware_structured (b0 : Byte) (content tail : List Byte)
    (hnz : ∀ b ∈ content, b ≠ 0) :
    G6ResponseParser.parse_ascii_firmware
        (b0 :: 0x07 :: 0x10 :: (content ++ 0 :: tail)) =
      if trimAsciiWs content ≠ [] then
        .ok (.FirmwareInfo ⟨trimAsciiWs content, some (trimAsciiWs content)⟩)
      else .error .couldNotExtractFirmware := by
  have h4 : ¬ (b0 :: 0x07 :: 0x10 :: (content ++ 0 :: tail)).length < 4 := by
    simp only [List.length_cons, List.length_append]
    omega
  unfold G6ResponseParser.parse_ascii_firmware
  rw [if_neg h4]
  simp only [List.drop_succ_cons, List.drop_zero,
    findZeroIdx_append_zero content tail hnz 3, Option.getD_some]
  by_cases hce : content = []
  · subst hce
    rw [if_neg (by norm_num)]
    simp [trimAsciiWs]
  · have hpos : 0 < content.length := List.length_pos.mpr hce
    rw [if_pos (by omega),
      show 3 + content.length - 3 = content.length by omega,
      List.take_left]

/-- C7: a response frame of the `(0x07, 0x10)` firmware shape decodes to a
FirmwareInfo whose version is the bytes between index 3 and the first zero
byte, trimmed of surrounding whitespace, and decoding fails exactly when
that trimmed text is empty.  Stated for ASCII payloads (each content byte
below 0x80 and nonzero), where the byte-level model of
`String::from_utf8_lossy` plus `trim` is exact. -/
theorem c7_firmware_decode (b0 : Byte) (content tail : List Byte)
    (hnz : ∀ b ∈ content, b ≠ 0) (hascii : ∀ b ∈ content, b < 128) :
    (trimAsciiWs content ≠ [] →
      G6ResponseParser.parse (b0 :: 0x07 :: 0x10 :: (content ++ 0 :: tail)) =
        .ok (.FirmwareInfo ⟨trimAsciiWs content, some (trimAsciiWs content)⟩)) ∧
    (trimAsciiWs content = [] →
      G6ResponseParser.parse (b0 :: 0x07 :: 0x10 :: (content ++ 0 :: tail)) =
        .error .couldNotExtractFirmware) := by
  have hdispatch :
      G6ResponseParser.parse (b0 :: 0x07 :: 0x10 :: (content ++ 0 :: tail)) =
        G6ResponseParser.parse_ascii_firmware
          (b0 :: 0x07 :: 0x10 :: (content ++ 0 :: tail)) := by
    rw [G6ResponseParser.parse,
      if_neg (by simp only [List.length_cons]; omega), if_pos ⟨rfl, rfl⟩]
  rw [hdispatch, parse_ascii_firmware_structured b0 content tail hnz]
  constructor
  · intro htr
    rw [if_pos htr]
  · intro htr
    rw [if_neg (by simp [htr])]

/-- Witness for C7: scenario S1 — the frame `5A 07 10` followed by the
ASCII bytes of the text 2.1.250903.1324 and a zero terminator decodes to
that version string. -/
theorem c7_firmware_decode_witness :
    G6ResponseParser.parse
        (0x5a :: 0x07 :: 0x10 ::
          ([0x32, 0x2e, 0x31, 0x2e, 0x32, 0x35, 0x30, 0x39, 0x30, 0x33,
            0x2e, 0x31, 0x33, 0x32, 0x34] ++ 0 :: List.replicate 45 0)) =
      .ok (.FirmwareInfo
        ⟨[0x32, 0x2e, 0x31, 0x2e, 0x32, 0x35, 0x30, 0x39, 0x30, 0x33,
          0x2e, 0x31, 0x33, 0x32, 0x34],
         some [0x32, 0x2e, 0x31, 0x2e, 0x32, 0x35, 0x30, 0x39, 0x30, 0x33,
          0x2e, 0x31, 0x33, 0x32, 0x34]⟩) := by
  have h := (c7_firmware_decode 0x5a
    [0x32, 0x2e, 0x31, 0x2e, 0x32, 0x35, 0x30, 0x39, 0x30, 0x33,
      0x2e, 0x31, 0x33, 0x32, 0x34] (List.replicate 45 0)
    (by decide) (by decide)).1 (by decide)
  simpa using h

/-! ## C8 — the transactional read filter -/

/-- The claim's acceptance predicate: a (report-id-stripped) frame answers a
read command exactly when its byte 0 is 0x5A and its byte 1 is the
command's family byte (a frame needs at least 2 bytes for these to exist). -/
def answersFamily (fam : Byte) (resp : List Byte) : Prop :=
  2 ≤ resp.length ∧ resp.getD 0 0 = 0x5a ∧ resp.getD 1 0 = fam

instance (fam : Byte) (resp : List Byte) : Decidable (answersFamily fam resp) := by
  unfold answersFamily
  infer_instance

/-- One-step equation for the per-command read loop, stated with pair
projections so it holds by reflexivity. -/
theorem readCommandsLoop_cons (dev : DeviceSim) (cmd : List Byte)
    (rest : List (List Byte)) :
    readCommandsLoop dev (cmd :: rest) =
      if cmd.length < 2 then readCommandsLoop dev rest
      else
        if (dev.popWrite).1 then
          ((findResponse (cmd.getD 1 0) (dev.popWrite).2.incoming).1.getD [] ::
            (readCommandsLoop
              { (dev.popWrite).2 with
                  incoming :=
                    (findResponse (cmd.getD 1 0) (dev.popWrite).2.incoming).2 }
              rest).1,
           (readCommandsLoop
              { (dev.popWrite).2 with
                  incoming :=
                    (findResponse (cmd.getD 1 0) (dev.popWrite).2.incoming).2 }
              rest).2)
        else ([] :: (readCommandsLoop (dev.popWrite).2 rest).1,
              (readCommandsLoop (dev.popWrite).2 rest).2) := rfl

/-- When no delivered frame answers the family, the filtered read loop
consumes every frame and returns no match. -/
theorem findResponse_none (fam : Byte) (frames : List (List Byte))
    (h : ∀ f ∈ frames, ¬ answersFamily fam (stripReportId f)) :
    findResponse fam frames = (none, []) := by
  induction frames with
  | nil => rfl
  | cons raw rest ih =>
    have hraw := h raw (List.mem_cons_self raw rest)
    have hrest := fun f hf => h f (List.mem_cons_of_mem raw hf)
    rw [findResponse]
    by_cases hskip : (stripReportId raw).length < 2 ∨
        (stripReportId raw).getD 0 0 ≠ 0x5a
    · rw [if_pos hskip]
      exact ih hrest
    · push_neg at hskip
      rw [if_neg (by push_neg; exact hskip)]
      rw [if_neg (fun hfam => hraw ⟨by omega, hskip.2, hfam⟩)]
      exact ih hrest

/-- C8: in the transactional read loop, a received frame is accepted as the
answer if and only if (after the report-id strip) it satisfies
`answersFamily`; frames failing the predicate are consumed and discarded
without terminating the loop; and a command none of whose delivered frames
matches contributes an empty response. -/
theorem c8_read_filter (cmdType : Byte) :
    (∀ frames : List (List Byte),
      (∀ f ∈ frames, ¬ answersFamily cmdType (stripReportId f)) →
        findResponse cmdType frames = (none, [])) ∧
    (∀ (pre : List (List Byte)) (f : List Byte) (post : List (List Byte)),
      answersFamily cmdType (stripReportId f) →
      (∀ g ∈ pre, ¬ answersFamily cmdType (stripReportId g)) →
        findResponse cmdType (pre ++ f :: post)
          = (some (stripReportId f), post)) ∧
    ∀ (cmd : List Byte) (dev : DeviceSim), 2 ≤ cmd.length →
      dev.writeResults = [] →
      (∀ f ∈ dev.incoming, ¬ answersFamily (cmd.getD 1 0) (stripReportId f)) →
      (readCommandsLoop dev [cmd]).1 = [[]] := by
  refine ⟨findResponse_none cmdType, ?_, ?_⟩
  · intro pre
    induction pre with
    | nil =>
      intro f post hf _
      obtain ⟨hl, h0, h1⟩ := hf
      rw [List.nil_append, findResponse,
        if_neg (by push_neg; exact ⟨by omega, h0⟩), if_pos h1]
    | cons g pre ih =>
      intro f post hf hpre
      have hg := hpre g (List.mem_cons_self g pre)
      have hpre' := fun x hx => hpre x (List.mem_cons_of_mem g hx)
      rw [List.cons_append, findResponse]
      by_cases hskip : (stripReportId g).length < 2 ∨
          (stripReportId g).getD 0 0 ≠ 0x5a
      · rw [if_pos hskip]
        exact ih f post hf hpre'
      · push_neg at hskip
        rw [if_neg (by push_neg; exact hskip)]
        rw [if_neg (fun hfam => hg ⟨by omega, hskip.2, hfam⟩)]
        exact ih f post hf hpre'
  · intro cmd dev hcmd hwr hnone
    have hpw : dev.popWrite = (true, dev) := by
      rw [DeviceSim.popWrite, hwr]
    rw [readCommandsLoop_cons, if_neg (by omega), hpw]
    rw [if_pos rfl]
    rw [findResponse_none (cmd.getD 1 0) dev.incoming hnone]
    rfl

/-- Witness for C8: a stray gaming event (with report id) is discarded and
the following `0x5A 0x11 ..` frame is accepted as the answer for an
AudioControl (0x11) read. -/
theorem c8_read_filter_witness :
    findResponse 0x11 [[0x00, 0x5a, 0x26, 0x05], [0x5a, 0x11, 0x08]]
      = (some [0x5a, 0x11, 0x08], []) :=
  (c8_read_filter 0x11).2.1 [[0x00, 0x5a, 0x26, 0x05]] [0x5a, 0x11, 0x08] []
    (by decide) (by decide)

/-! ## C10 — toggling the output from headphones -/

theorem DeviceSim.popRead_writeResults (d : DeviceSim) :
    (d.popRead).2.writeResults = d.writeResults := by
  rw [DeviceSim.popRead]
  cases d.incoming <;> rfl

/-- One-step equation for the write loop, stated with pair projections so
it holds by reflexivity. -/
theorem writeLoop_cons (dev : DeviceSim) (c : List Byte)
    (rest trace : List (List Byte)) :
    writeLoop dev (c :: rest) trace =
      if (dev.popWrite).1 then
        writeLoop ((dev.popWrite).2.popRead).2 rest (trace ++ [0x00 :: c])
      else ((dev.popWrite).2, trace, .error .writeFailed) := rfl

/-- A run of the write loop in which every write succeeds submits exactly
the commands, each with the 0x00 report id prepended, in order. -/
theorem writeLoop_all_ok (cmds : List (List Byte)) :
    ∀ (dev : DeviceSim) (trace : List (List Byte)),
      (∀ b ∈ dev.writeResults, b = true) →
      ∃ dev', writeLoop dev cmds trace
        = (dev', trace ++ cmds.map (fun c => 0x00 :: c), .ok ()) := by
  induction cmds with
  | nil => intro dev trace _; exact ⟨dev, by simp [writeLoop]⟩
  | cons c rest ih =>
    intro dev trace hw
    have hok : (dev.popWrite).1 = true := by
      rw [DeviceSim.popWrite]
      cases hwr : dev.writeResults with
      | nil => rfl
      | cons b bs => exact hw b (hwr ▸ List.mem_cons_self b bs)
    have hsub : ∀ b ∈ (dev.popWrite).2.writeResults, b = true := by
      rw [DeviceSim.popWrite]
      cases hwr : dev.writeResults with
      | nil => intro b hb; exact hw b (hwr ▸ hb)
      | cons x xs =>
        intro b hb
        exact hw b (hwr ▸ List.mem_cons_of_mem x hb)
    have hsub2 : ∀ b ∈ ((dev.popWrite).2.popRead).2.writeResults, b = true := by
      rw [DeviceSim.popRead_writeResults]
      exact hsub
    obtain ⟨dev', hrec⟩ := ih ((dev.popWrite).2.popRead).2
      (trace ++ [0x00 :: c]) hsub2
    refine ⟨dev', ?_⟩
    rw [writeLoop_cons, hok, if_pos rfl, hrec]
    simp

/-- On a connected device whose writes all succeed, `send_commands` submits
every frame (report id prepended), succeeds, clears `command_active` and
leaves the settings mirror untouched. -/
theorem send_commands_connected (dev : DeviceSim) (s : G6Settings) (ca : Bool)
    (cmds : List (List Byte)) (hw : ∀ b ∈ dev.writeResults, b = true) :
    ∃ dev', send_commands ⟨some dev, s, ca⟩ cmds
      = (⟨some dev', s, false⟩, cmds.map (fun c => 0x00 :: c), .ok ()) := by
  obtain ⟨dev', hwl⟩ := writeLoop_all_ok cmds dev [] hw
  refine ⟨dev', ?_⟩
  rw [send_commands]
  dsimp only [commandEntry]
  rw [hwl]
  simp

/-- C10: with the mirror reading Headphones, `toggle_output` submits exactly
the two frames `5A 2C 05 00 02 …` then `5A 2C 01 01 …` (each preceded by the
0x00 report id), succeeds, and does not itself change the settings mirror;
the device-emitted frame `5A 2C 05 01 02 …` parses to
`OutputChanged(Speakers)`, and applying that event sets the mirror's output
to Speakers. -/
theorem c10_toggle_output_headphones (dev : DeviceSim) (s : G6Settings)
    (ca : Bool) (hout : s.output = .Headphones)
    (hw : ∀ b ∈ dev.writeResults, b = true) :
    (∃ dev', toggle_output ⟨some dev, s, ca⟩
      = (⟨some dev', s, false⟩,
         [0x00 :: ([0x5a, 0x2c, 0x05, 0x00, 0x02] ++ List.replicate 59 0),
          0x00 :: ([0x5a, 0x2c, 0x01, 0x01] ++ List.replicate 60 0)],
         .ok ())) ∧
    G6EventParser.parse ([0x5a, 0x2c, 0x05, 0x01, 0x02] ++ List.replicate 59 0)
      = [.OutputChanged .Speakers] ∧
    (applyEvent s (.OutputChanged .Speakers)).output = .Speakers := by
  have hcmds : build_toggle_output_simple OutputDevice.Headphones =
      [[0x5a, 0x2c, 0x05, 0x00, 0x02] ++ List.replicate 59 0,
       [0x5a, 0x2c, 0x01, 0x01] ++ List.replicate 60 0] := by decide
  refine ⟨?_, by decide, rfl⟩
  obtain ⟨dev', hsc⟩ := send_commands_connected dev s ca
    (build_toggle_output_simple OutputDevice.Headphones) hw
  refine ⟨dev', ?_⟩
  rw [toggle_output]
  dsimp only
  rw [hout, hsc, hcmds]
  rfl

/-- Witness for C10 at a fresh device and the default settings (whose
output is Headphones). -/
theorem c10_toggle_output_headphones_witness :
    (∃ dev', toggle_output ⟨some ⟨[], []⟩, defaultG6Settings, false⟩
      = (⟨some dev', defaultG6Settings, false⟩,
         [0x00 :: ([0x5a, 0x2c, 0x05, 0x00, 0x02] ++ List.replicate 59 0),
          0x00 :: ([0x5a, 0x2c, 0x01, 0x01] ++ List.replicate 60 0)],
         .ok ())) ∧
    G6EventParser.parse ([0x5a, 0x2c, 0x05, 0x01, 0x02] ++ List.replicate 59 0)
      = [.OutputChanged .Speakers] ∧
    (applyEvent defaultG6Settings (.OutputChanged .Speakers)).output
      = .Speakers :=
  c10_toggle_output_headphones ⟨[], []⟩ defaultG6Settings false rfl
    (by simp)

end G6
